import Mathlib

/-!
Verification development for the Audio2Face-to-Unreal conversion script
(`audio2face_unreal.py`).  The definitions below are a shallow embedding of
the stream-aggregation core and its consumers:

* byte buffers are `List Nat` (byte values are never inspected, only
  positions matter);
* protobuf scalar fields that the script reads defensively (`hasattr` /
  `getattr` with a default, `HasField`) are `Option`s;
* the numeric fields `time_code` and the blendshape weight scalars are
  modelled as exact rationals (the script only compares, maxes and divides
  them — no rounding behaviour is relied upon);
* the gRPC inbound stream is a list of responses that were delivered,
  together with a flag recording whether the transport raised an
  `AioRpcError` afterwards; a raised error is an `Except.error`.
-/

namespace A2F

/-- The fixed chunk size used when splitting the audio buffer
(`chunk_size = 4096` in `_process_with_nvidia_sdk`). -/
def chunk_size : Nat := 4096

/-- `AudioHeader(audio_format=PCM, channel_count=1, samples_per_second=16000,
bits_per_sample=16)`. The format enum is a tag; only PCM is used. -/
structure AudioHeader where
  audio_format : String
  channel_count : Nat
  samples_per_second : Nat
  bits_per_sample : Nat
deriving Repr, DecidableEq

/-- The audio header the script always sends. -/
def theAudioHeader : AudioHeader :=
  { audio_format := "AUDIO_FORMAT_PCM"
    channel_count := 1
    samples_per_second := 16000
    bits_per_sample := 16 }

/-- `FaceParameters.float_params`: named float parameters, modelled as an
association list of name/rational pairs. -/
def faceParams : List (String × ℚ) :=
  [("upperFaceStrength", 1), ("lowerFaceStrength", 12/10),
   ("faceMaskLevel", 6/10), ("skinStrength", 1),
   ("eyelidOpenOffset", 6/100), ("lipOpenOffset", -2/100)]

/-- `AudioStreamHeader(audio_header=…, face_params=…)`. -/
structure AudioStreamHeader where
  audio_header : AudioHeader
  face_params : List (String × ℚ)
deriving Repr, DecidableEq

/-- The stream header the script builds once per run. -/
def theStreamHeader : AudioStreamHeader :=
  { audio_header := theAudioHeader, face_params := faceParams }

/-- One outbound `AudioStream` message: the header variant, an
`audio_with_emotion` chunk carrying a byte payload, or the
`end_of_audio` sentinel. -/
inductive AudioStream where
  | header (h : AudioStreamHeader)
  | chunk (audio_buffer : List Nat)
  | endOfAudio
deriving Repr, DecidableEq

/-- `for i in range(0, len(audio_data), chunk_size): audio_data[i:i+chunk_size]`:
split a byte buffer into consecutive pieces of `chunk_size` bytes, the last
one possibly shorter.  An empty buffer yields no chunks. -/
def chunkAudio : List Nat → List (List Nat)
  | [] => []
  | a :: t => (a :: t).take chunk_size :: chunkAudio ((a :: t).drop chunk_size)
termination_by l => l.length
decreasing_by
  simp only [List.length_drop, List.length_cons, chunk_size]
  omega

/-- The full outbound request sequence of `_process_with_nvidia_sdk`:
one stream header, then the audio chunks in byte order, then one
end-of-audio marker. -/
def buildRequests (audio_data : List Nat) : List AudioStream :=
  AudioStream.header theStreamHeader ::
    ((chunkAudio audio_data).map AudioStream.chunk ++ [AudioStream.endOfAudio])

theorem chunkAudio_nil : chunkAudio [] = [] := by
  simp [chunkAudio]

theorem chunkAudio_cons (a : Nat) (l : List Nat) :
    chunkAudio (a :: l) =
      (a :: l).take chunk_size :: chunkAudio ((a :: l).drop chunk_size) := by
  rw [chunkAudio]

/-- Concatenating the chunks restores the original buffer byte for byte. -/
theorem chunkAudio_flatten (l : List Nat) : (chunkAudio l).flatten = l := by
  induction l using chunkAudio.induct with
  | case1 => simp [chunkAudio]
  | case2 a t ih =>
    rw [chunkAudio_cons]
    simp only [List.flatten_cons, ih, List.take_append_drop]

/-- The number of chunks is `⌈L / chunk_size⌉`, written with natural
division as `(L + chunk_size - 1) / chunk_size`. -/
theorem chunkAudio_length (l : List Nat) :
    (chunkAudio l).length = (l.length + chunk_size - 1) / chunk_size := by
  induction l using chunkAudio.induct with
  | case1 =>
    simp only [chunkAudio, List.length_nil, chunk_size]
  | case2 a t ih =>
    rw [chunkAudio_cons]
    simp only [List.length_cons, List.length_drop] at ih ⊢
    rw [ih]
    simp only [chunk_size] at *
    omega

/-- Every chunk is at most `chunk_size` bytes and never empty. -/
theorem chunkAudio_mem_length (l : List Nat) :
    ∀ c ∈ chunkAudio l, c.length ≤ chunk_size ∧ c ≠ [] := by
  induction l using chunkAudio.induct with
  | case1 => simp [chunkAudio]
  | case2 a t ih =>
    rw [chunkAudio_cons]
    intro c hc
    rcases List.mem_cons.mp hc with h | h
    · subst h
      constructor
      · simp
      · simp [List.take, chunk_size]
    · exact ih c h

theorem chunkAudio_eq_nil_iff (l : List Nat) : chunkAudio l = [] ↔ l = [] := by
  constructor
  · intro h
    rcases l with _ | ⟨a, t⟩
    · rfl
    · rw [chunkAudio_cons] at h
      simp at h
  · intro h
    subst h
    simp [chunkAudio]

/-- Every chunk except possibly the last is exactly `chunk_size` bytes:
no padding is inserted and no chunk is cut short in the middle. -/
theorem chunkAudio_dropLast_length (l : List Nat) :
    ∀ c ∈ (chunkAudio l).dropLast, c.length = chunk_size := by
  induction l using chunkAudio.induct with
  | case1 => simp [chunkAudio]
  | case2 a t ih =>
    rw [chunkAudio_cons]
    intro c hc
    rcases h : chunkAudio ((a :: t).drop chunk_size) with _ | ⟨c0, cs⟩
    · rw [h] at hc
      simp at hc
    · rw [h, List.dropLast_cons_of_ne_nil (by simp)] at hc
      rcases List.mem_cons.mp hc with h1 | h1
      · subst h1
        have hd : (a :: t).drop chunk_size ≠ [] := by
          intro hh
          rw [hh] at h
          simp [chunkAudio] at h
        have hlen : chunk_size ≤ (a :: t).length := by
          by_contra hcon
          push_neg at hcon
          exact hd (List.drop_eq_nil_of_le (Nat.le_of_lt hcon))
        simp only [List.length_cons] at hlen
        simp only [List.length_take, List.length_cons]
        omega
      · rw [← h] at h1
        exact ih c h1

/-! ## Inbound responses and frame extraction -/

/-- One entry of the `blend_shape_weights` collection.  `time_code` and
`values` are the fields the script reads with `getattr(…, 'time_code', 0)`
and a `hasattr(…, 'values')` guard; an absent field is `none`. -/
structure BSWEntry where
  time_code : Option ℚ
  values : Option (List ℚ)
deriving Repr, DecidableEq

/-- The `skel_animation` sub-message; the script guards the
`blend_shape_weights` collection with `hasattr`. -/
structure SkelAnimation where
  blend_shape_weights : Option (List BSWEntry)
deriving Repr, DecidableEq

/-- The `animation_data` sub-message; the script guards `skel_animation`
with `hasattr`. -/
structure AnimationData where
  skel_animation : Option SkelAnimation
deriving Repr, DecidableEq

/-- One inbound response: `HasField('animation_data')` is modelled by the
option being `some`. -/
structure Response where
  animation_data : Option AnimationData
deriving Repr, DecidableEq

/-- One collected frame: the dict
`{'time_code': …, 'blendshape_weights': …}` appended to
`animation_frames`. -/
structure FrameData where
  time_code : ℚ
  blendshape_weights : List ℚ
deriving Repr, DecidableEq

/-- The per-response extraction of lines 236-272: `blendshape_weights`
and `time_code` start as `[]` and `0`; they are replaced only when
`skel_animation`, `blend_shape_weights` and a first entry are all present,
taking that first entry's `time_code` (default 0) and `values`
(default empty).  Entries after the first are never consulted. -/
def extractFrame (ad : AnimationData) : FrameData :=
  match ad.skel_animation with
  | none => { time_code := 0, blendshape_weights := [] }
  | some sa =>
    match sa.blend_shape_weights with
    | none => { time_code := 0, blendshape_weights := [] }
    | some list =>
      match list with
      | [] => { time_code := 0, blendshape_weights := [] }
      | e :: _ =>
        { time_code := e.time_code.getD 0
          blendshape_weights := e.values.getD [] }

/-- The response loop body: a frame is appended for every response that
has `animation_data`; other responses are skipped.  Arrival order is
preserved. -/
def collectFrames (responses : List Response) : List FrameData :=
  responses.filterMap fun r => r.animation_data.map extractFrame

/-- `max(...)` over a nonempty Python iterable: fold `max` from the first
element. -/
def pymax (a : ℚ) (l : List ℚ) : ℚ := l.foldl max a

/-- `max(f['time_code'] for f in animation_frames) if animation_frames
else 0`. -/
def durationOf (frames : List FrameData) : ℚ :=
  match frames.map FrameData.time_code with
  | [] => 0
  | t :: ts => pymax t ts

/-- The dict returned by `_process_with_nvidia_sdk` on success. -/
structure AnimationResult where
  source_file : String
  frames : List FrameData
  duration : ℚ
  frame_count : Nat
deriving Repr, DecidableEq

/-- The only error the aggregation surfaces: `grpc.aio.AioRpcError`
re-raised by the `except` clause. -/
inductive ProcError where
  | aioRpcError
deriving Repr, DecidableEq

/-- The inbound side of one exchange: the responses the transport
delivered, and whether it then raised an `AioRpcError` instead of ending
cleanly. -/
structure Inbound where
  responses : List Response
  failed : Bool
deriving Repr, DecidableEq

/-- `_process_with_nvidia_sdk`: build the outbound requests from the raw
bytes, consume the inbound stream collecting frames, re-raise a transport
error (discarding any frames collected so far), and otherwise return the
result dict with the derived `duration` and `frame_count`. -/
def processWithNvidiaSdk (wav_file : String) (audio_data : List Nat)
    (inbound : Inbound) : Except ProcError AnimationResult :=
  let _requests := buildRequests audio_data
  if inbound.failed then
    Except.error ProcError.aioRpcError
  else
    let animation_frames := collectFrames inbound.responses
    Except.ok
      { source_file := wav_file
        frames := animation_frames
        duration := durationOf animation_frames
        frame_count := animation_frames.length }

/-- `_process_with_custom_grpc` returns this dict: the normal result
fields plus a `warning` key. -/
structure FallbackResult where
  source_file : String
  frames : List FrameData
  duration : ℚ
  frame_count : Nat
  warning : String
deriving Repr, DecidableEq

/-- The fallback path used when the NVIDIA SDK is unavailable: a pure
function of the file name alone — it consults no inbound stream and can
not fail. -/
def processWithCustomGrpc (wav_file : String) : FallbackResult :=
  { source_file := wav_file
    frames := []
    duration := 0
    frame_count := 0
    warning := "Custom gRPC not implemented - install nvidia_ace SDK" }

/-! ## Metadata export -/

/-- The derived fields of the metadata record written by
`_export_metadata` (the fixed `export_info` block and the file paths hold
no logic and are omitted). -/
structure Metadata where
  animation_name : String
  duration_seconds : ℚ
  frame_count : Nat
  frame_rate : ℚ
  blendshape_count : Nat
deriving Repr, DecidableEq

/-- `_export_metadata`, lines 419-432: `frame_rate` is
`frame_count / duration` guarded by `duration > 0`, else `0`;
`blendshape_count` is the length of the first frame's weights when any
frame exists, else `0`. -/
def exportMetadata (animation_data : AnimationResult) (base_name : String) :
    Metadata :=
  { animation_name := base_name
    duration_seconds := animation_data.duration
    frame_count := animation_data.frame_count
    frame_rate :=
      if 0 < animation_data.duration then
        (animation_data.frame_count : ℚ) / animation_data.duration
      else 0
    blendshape_count :=
      match animation_data.frames with
      | [] => 0
      | f :: _ => f.blendshape_weights.length }

/-! ## Batch processing -/

/-- The three asset file names `_generate_animation_assets` produces for
one base name (`…_animation.usd`, `…_animation.json`,
`…_metadata.json`); the files' contents are I/O and out of scope here. -/
def generateAssetNames (base_name : String) : List String :=
  [base_name ++ "_animation.usd", base_name ++ "_animation.json",
   base_name ++ "_metadata.json"]

/-- One file of a batch: its base name, its raw audio bytes, and the
inbound stream the service produces for it. -/
structure BatchFile where
  base_name : String
  audio_data : List Nat
  inbound : Inbound
deriving Repr, DecidableEq

/-- The `for wav_file in wav_files` loop of `process_workspace`,
lines 110-132: each file is processed inside `try/except`; on success the
generated asset names are appended to the running list, on failure the
error is logged and the loop simply continues with the next file. -/
def processWorkspaceLoop : List BatchFile → List String
  | [] => []
  | f :: fs =>
    match processWithNvidiaSdk f.base_name f.audio_data f.inbound with
    | Except.ok _ => generateAssetNames f.base_name ++ processWorkspaceLoop fs
    | Except.error _ => processWorkspaceLoop fs

/-- `wav_files.sort()` before the loop: the discovered file names are put
in lexicographically sorted order, whatever order the filesystem glob
returned them in. -/
def processingOrder (wav_files : List String) : List String :=
  wav_files.insertionSort (· ≤ ·)

/-! ## Helper lemmas -/

theorem le_pymax_self (a : ℚ) (l : List ℚ) : a ≤ pymax a l := by
  induction l generalizing a with
  | nil => simp [pymax]
  | cons x xs ih =>
    calc a ≤ max a x := le_max_left a x
    _ ≤ pymax (max a x) xs := ih (max a x)
    _ = pymax a (x :: xs) := rfl

theorem le_pymax_of_mem {x : ℚ} {l : List ℚ} (h : x ∈ l) (a : ℚ) :
    x ≤ pymax a l := by
  induction l generalizing a with
  | nil => simp at h
  | cons y ys ih =>
    rcases List.mem_cons.mp h with h1 | h1
    · subst h1
      calc x ≤ max a x := le_max_right a x
      _ ≤ pymax (max a x) ys := le_pymax_self (max a x) ys
    · exact ih h1 (max a y)

theorem pymax_mem (a : ℚ) (l : List ℚ) : pymax a l = a ∨ pymax a l ∈ l := by
  induction l generalizing a with
  | nil => left; rfl
  | cons x xs ih =>
    have : pymax a (x :: xs) = pymax (max a x) xs := rfl
    rw [this]
    rcases ih (max a x) with h | h
    · rcases max_choice a x with h1 | h1
      · left; rw [h, h1]
      · right; rw [h, h1]; exact List.mem_cons_self x xs
    · right; exact List.mem_cons_of_mem x h

theorem durationOf_nil : durationOf [] = 0 := rfl

theorem le_durationOf {frames : List FrameData} {f : FrameData}
    (h : f ∈ frames) : f.time_code ≤ durationOf frames := by
  rcases frames with _ | ⟨g, gs⟩
  · simp at h
  · show f.time_code ≤ pymax g.time_code (gs.map FrameData.time_code)
    rcases List.mem_cons.mp h with h1 | h1
    · subst h1
      exact le_pymax_self _ _
    · exact le_pymax_of_mem (List.mem_map_of_mem FrameData.time_code h1) _

theorem durationOf_attained {frames : List FrameData} (h : frames ≠ []) :
    ∃ f ∈ frames, durationOf frames = f.time_code := by
  rcases frames with _ | ⟨g, gs⟩
  · exact absurd rfl h
  · have : durationOf (g :: gs) = pymax g.time_code (gs.map FrameData.time_code) := rfl
    rcases pymax_mem g.time_code (gs.map FrameData.time_code) with h1 | h1
    · exact ⟨g, List.mem_cons_self g gs, by rw [this, h1]⟩
    · rcases List.mem_map.mp h1 with ⟨f, hf, hfe⟩
      exact ⟨f, List.mem_cons_of_mem g hf, by rw [this, ← hfe]⟩

theorem collectFrames_nil : collectFrames [] = [] := rfl

theorem collectFrames_append (rs₁ rs₂ : List Response) :
    collectFrames (rs₁ ++ rs₂) = collectFrames rs₁ ++ collectFrames rs₂ := by
  simp [collectFrames]

theorem collectFrames_length (rs : List Response) :
    (collectFrames rs).length =
      (rs.filter (fun r => r.animation_data.isSome)).length := by
  induction rs with
  | nil => rfl
  | cons r rest ih =>
    rcases h : r.animation_data with _ | ad
    · simp [collectFrames, List.filterMap_cons, List.filter_cons, h] at *
      exact ih
    · simp [collectFrames, List.filterMap_cons, List.filter_cons, h] at *
      exact ih

/-! ## Claim theorems -/

/-- C1: for every audio byte buffer of length `L`, the outbound request
sequence is exactly one header message first, then `⌈L / 4096⌉`
audio-chunk messages whose payloads concatenated in order reproduce the
original `L` bytes (only the last chunk may be shorter than 4096 bytes,
no reordering, no padding), then exactly one end-of-stream marker last. -/
theorem request_sequence_correct (audio_data : List Nat) :
    buildRequests audio_data =
      AudioStream.header theStreamHeader ::
        ((chunkAudio audio_data).map AudioStream.chunk ++ [AudioStream.endOfAudio])
    ∧ (chunkAudio audio_data).length =
        (audio_data.length + chunk_size - 1) / chunk_size
    ∧ (chunkAudio audio_data).flatten = audio_data
    ∧ (∀ c ∈ (chunkAudio audio_data).dropLast, c.length = chunk_size)
    ∧ (∀ c ∈ chunkAudio audio_data, c.length ≤ chunk_size ∧ c ≠ []) :=
  ⟨rfl, chunkAudio_length audio_data, chunkAudio_flatten audio_data,
   chunkAudio_dropLast_length audio_data, chunkAudio_mem_length audio_data⟩

theorem request_sequence_correct_witness :
    chunkAudio [7, 7, 7] = [[7, 7, 7]]
    ∧ ([7, 7, 7] : List Nat).length ≤ chunk_size := by
  have hdrop : List.drop chunk_size [7, 7, 7] = ([] : List Nat) := by decide
  have h1 : chunkAudio [7, 7, 7] = [[7, 7, 7]] := by
    rw [chunkAudio_cons, hdrop, chunkAudio_nil]
    decide
  refine ⟨h1, ?_⟩
  have hmem : ([7, 7, 7] : List Nat) ∈ chunkAudio [7, 7, 7] := by
    rw [h1]
    exact List.mem_singleton.mpr rfl
  exact ((request_sequence_correct [7, 7, 7]).2.2.2.2 [7, 7, 7] hmem).1

/-- C2: a response that has animation data but whose blend-shape-weights
collection is absent or empty yields an appended frame with empty weights
and time code 0, and the aggregation keeps consuming the rest of the
stream and still succeeds — it never aborts or errors on such a
response. -/
theorem empty_collection_recovered (src : String) (audio_data : List Nat)
    (pre post : List Response) (ad : AnimationData)
    (h : ad.skel_animation = none ∨
         ∃ sa, ad.skel_animation = some sa ∧
           (sa.blend_shape_weights = none ∨ sa.blend_shape_weights = some [])) :
    extractFrame ad = { time_code := 0, blendshape_weights := [] }
    ∧ ∃ result,
        processWithNvidiaSdk src audio_data
            { responses := pre ++ { animation_data := some ad } :: post,
              failed := false } = Except.ok result
        ∧ result.frames =
            collectFrames pre ++
              { time_code := 0, blendshape_weights := [] } :: collectFrames post := by
  have hext : extractFrame ad = { time_code := 0, blendshape_weights := [] } := by
    rcases h with h | ⟨sa, hsa, h⟩
    · simp [extractFrame, h]
    · rcases h with h | h
      · simp [extractFrame, hsa, h]
      · simp [extractFrame, hsa, h]
  refine ⟨hext, ?_⟩
  refine ⟨_, rfl, ?_⟩
  show collectFrames (pre ++ { animation_data := some ad } :: post) = _
  rw [collectFrames_append]
  simp [collectFrames, List.filterMap_cons, hext]

theorem empty_collection_recovered_witness :
    ((AnimationData.mk (some (SkelAnimation.mk (some [])))).skel_animation = none ∨
      ∃ sa, (AnimationData.mk (some (SkelAnimation.mk (some [])))).skel_animation = some sa ∧
        (sa.blend_shape_weights = none ∨ sa.blend_shape_weights = some []))
    ∧ extractFrame (AnimationData.mk (some (SkelAnimation.mk (some [])))) =
        { time_code := 0, blendshape_weights := [] } :=
  ⟨Or.inr ⟨SkelAnimation.mk (some []), rfl, Or.inr rfl⟩,
   (empty_collection_recovered "a.wav" [1] [] [] _
     (Or.inr ⟨SkelAnimation.mk (some []), rfl, Or.inr rfl⟩)).1⟩

/-- C3: when the blend-shape-weights collection is non-empty, the frame
is built from its first entry alone — weights are that entry's value
sequence (empty when the field is unset), the time code is that entry's
time-code field (0 when unset) — and entries beyond the first never
contribute. -/
theorem first_entry_only (ad : AnimationData) (sa : SkelAnimation)
    (e : BSWEntry) (rest : List BSWEntry)
    (h1 : ad.skel_animation = some sa)
    (h2 : sa.blend_shape_weights = some (e :: rest)) :
    (extractFrame ad).blendshape_weights = e.values.getD []
    ∧ (extractFrame ad).time_code = e.time_code.getD 0
    ∧ (∀ t, e.time_code = some t → (extractFrame ad).time_code = t)
    ∧ (e.time_code = none → (extractFrame ad).time_code = 0)
    ∧ (∀ vs, e.values = some vs → (extractFrame ad).blendshape_weights = vs)
    ∧ (e.values = none → (extractFrame ad).blendshape_weights = [])
    ∧ extractFrame ad =
        extractFrame (AnimationData.mk (some (SkelAnimation.mk (some [e])))) := by
  have hext : extractFrame ad =
      { time_code := e.time_code.getD 0, blendshape_weights := e.values.getD [] } := by
    simp [extractFrame, h1, h2]
  refine ⟨by rw [hext], by rw [hext], ?_, ?_, ?_, ?_, ?_⟩
  · intro t ht
    rw [hext]; simp [ht]
  · intro ht
    rw [hext]; simp [ht]
  · intro vs hvs
    rw [hext]; simp [hvs]
  · intro hvs
    rw [hext]; simp [hvs]
  · rw [hext]; simp [extractFrame]

theorem first_entry_only_witness :
    (extractFrame (AnimationData.mk (some (SkelAnimation.mk
      (some [BSWEntry.mk (some 5) (some [1, 2, 3]),
             BSWEntry.mk (some 9) (some [4])]))))).blendshape_weights =
      (Option.some ([1, 2, 3] : List ℚ)).getD [] :=
  (first_entry_only _ _ (BSWEntry.mk (some 5) (some [1, 2, 3]))
    [BSWEntry.mk (some 9) (some [4])] rfl rfl).1

/-- C4: on a cleanly completed stream, the returned result's frame count
is the number of responses carrying animation data, its frames are the
extracted frames in arrival order, and its duration is the maximum time
code over collected frames — with frame count 0 and duration 0 when no
response carried animation data. -/
theorem result_aggregates (src : String) (audio_data : List Nat)
    (responses : List Response) (result : AnimationResult)
    (h : processWithNvidiaSdk src audio_data
          { responses := responses, failed := false } = Except.ok result) :
    result.frame_count =
      (responses.filter (fun r => r.animation_data.isSome)).length
    ∧ result.frames = collectFrames responses
    ∧ (∀ f ∈ result.frames, f.time_code ≤ result.duration)
    ∧ (result.frames ≠ [] → ∃ f ∈ result.frames, result.duration = f.time_code)
    ∧ (result.frames = [] → result.frame_count = 0 ∧ result.duration = 0) := by
  have hr : result =
      { source_file := src
        frames := collectFrames responses
        duration := durationOf (collectFrames responses)
        frame_count := (collectFrames responses).length } := by
    simpa [processWithNvidiaSdk] using h.symm
  subst hr
  refine ⟨collectFrames_length responses, rfl, ?_, ?_, ?_⟩
  · intro f hf
    exact le_durationOf hf
  · intro hne
    exact durationOf_attained hne
  · intro hnil
    have hnil' : collectFrames responses = [] := hnil
    refine ⟨?_, ?_⟩
    · show (collectFrames responses).length = 0
      rw [hnil']
      rfl
    · show durationOf (collectFrames responses) = 0
      rw [hnil']
      rfl

theorem result_aggregates_witness :
    processWithNvidiaSdk "a.wav" []
        { responses := [{ animation_data := none }], failed := false } =
      Except.ok { source_file := "a.wav", frames := [], duration := 0, frame_count := 0 }
    ∧ ({ source_file := "a.wav", frames := [], duration := 0,
         frame_count := 0 } : AnimationResult).frame_count =
        (([{ animation_data := none }] : List Response).filter
          (fun r => r.animation_data.isSome)).length :=
  ⟨by rfl,
   (result_aggregates "a.wav" [] [{ animation_data := none }] _ (by rfl)).1⟩

/-- C5: a transport failure makes the aggregation surface the error and
return no result: whatever frames arrived before the failure are
discarded and never reach the caller. -/
theorem transport_failure_all_or_nothing (src : String) (audio_data : List Nat)
    (responses : List Response) :
    processWithNvidiaSdk src audio_data
        { responses := responses, failed := true } =
      Except.error ProcError.aioRpcError
    ∧ ∀ result : AnimationResult,
        processWithNvidiaSdk src audio_data
            { responses := responses, failed := true } ≠ Except.ok result := by
  refine ⟨rfl, ?_⟩
  intro result hcon
  simp [processWithNvidiaSdk] at hcon

theorem transport_failure_all_or_nothing_witness :
    processWithNvidiaSdk "a.wav" [1, 2]
        { responses := [{ animation_data := some (AnimationData.mk none) }],
          failed := true } =
      Except.error ProcError.aioRpcError :=
  (transport_failure_all_or_nothing "a.wav" [1, 2]
    [{ animation_data := some (AnimationData.mk none) }]).1

/-- C6 counterexample: a zero-length audio buffer is NOT rejected with an
`EmptyInputError` before building requests — no such error exists in the
code.  Requests are built (header plus end-of-stream marker) and the
aggregation runs to a successful empty result. -/
theorem empty_input_not_rejected :
    processWithNvidiaSdk "empty.wav" [] { responses := [], failed := false } =
      Except.ok
        { source_file := "empty.wav", frames := [], duration := 0, frame_count := 0 }
    ∧ buildRequests [] =
        [AudioStream.header theStreamHeader, AudioStream.endOfAudio] := by
  constructor
  · rfl
  · simp [buildRequests, chunkAudio_nil]

/-- C6 amended: a zero-length audio buffer is not rejected — no
empty-input check exists.  Its request sequence is the header followed
immediately by the end-of-stream marker with zero audio chunks, the
exchange is opened, and absent a transport failure the aggregation
returns a normal (empty) result. -/
theorem empty_input_proceeds (src : String) (responses : List Response) :
    chunkAudio [] = []
    ∧ buildRequests [] =
        [AudioStream.header theStreamHeader, AudioStream.endOfAudio]
    ∧ ∃ result,
        processWithNvidiaSdk src [] { responses := responses, failed := false } =
          Except.ok result := by
  refine ⟨chunkAudio_nil, by simp [buildRequests, chunkAudio_nil], ?_⟩
  exact ⟨_, rfl⟩

/-- C7: the metadata export computes `frame_rate` as
`frame_count / duration` only when `duration` is strictly positive and 0
when `duration` is 0 (no division by zero), and `blendshape_count` as the
length of the first frame's weights when a frame exists and 0
otherwise. -/
theorem metadata_no_division_by_zero (animation_data : AnimationResult)
    (base_name : String) :
    (0 < animation_data.duration →
      (exportMetadata animation_data base_name).frame_rate =
        (animation_data.frame_count : ℚ) / animation_data.duration)
    ∧ (animation_data.duration = 0 →
        (exportMetadata animation_data base_name).frame_rate = 0)
    ∧ (animation_data.frames = [] →
        (exportMetadata animation_data base_name).blendshape_count = 0)
    ∧ (∀ f fs, animation_data.frames = f :: fs →
        (exportMetadata animation_data base_name).blendshape_count =
          f.blendshape_weights.length) := by
  refine ⟨?_, ?_, ?_, ?_⟩
  · intro hpos
    simp [exportMetadata, hpos]
  · intro hzero
    simp [exportMetadata, hzero]
  · intro hnil
    simp [exportMetadata, hnil]
  · intro f fs hcons
    simp [exportMetadata, hcons]

theorem metadata_no_division_by_zero_witness :
    (0 : ℚ) < 2
    ∧ (exportMetadata
        { source_file := "a.wav",
          frames := [{ time_code := 2, blendshape_weights := [1, 0, 1] }],
          duration := 2, frame_count := 1 } "a").frame_rate = 1 / 2 := by
  refine ⟨by norm_num, ?_⟩
  have h := (metadata_no_division_by_zero
    { source_file := "a.wav",
      frames := [{ time_code := 2, blendshape_weights := [1, 0, 1] }],
      duration := 2, frame_count := 1 } "a").1 (by norm_num)
  rw [h]
  norm_num

/-- C8: the batch loop isolates per-file failures: the generated asset
list is exactly the assets of the succeeding files, in order — a failing
file contributes nothing and does not stop later files from being
processed and their assets returned. -/
theorem batch_failures_isolated (files : List BatchFile) :
    processWorkspaceLoop files =
      ((files.filter fun f =>
          match processWithNvidiaSdk f.base_name f.audio_data f.inbound with
          | Except.ok _ => true
          | Except.error _ => false).map
        (fun f => generateAssetNames f.base_name)).flatten := by
  induction files with
  | nil => rfl
  | cons f fs ih =>
    rcases hp : processWithNvidiaSdk f.base_name f.audio_data f.inbound with e | r
    · simp [processWorkspaceLoop, hp, List.filter_cons, ih]
    · simp [processWorkspaceLoop, hp, List.filter_cons, ih]

/-- C9: when the NVIDIA SDK is unavailable the fallback path returns, for
any input file and without consulting any stream, a placeholder result
with no frames, duration 0, frame count 0, and a warning marker — it
never raises. -/
theorem fallback_returns_placeholder (wav_file : String) :
    (processWithCustomGrpc wav_file).frames = []
    ∧ (processWithCustomGrpc wav_file).duration = 0
    ∧ (processWithCustomGrpc wav_file).frame_count = 0
    ∧ (processWithCustomGrpc wav_file).warning =
        "Custom gRPC not implemented - install nvidia_ace SDK"
    ∧ (processWithCustomGrpc wav_file).source_file = wav_file :=
  ⟨rfl, rfl, rfl, rfl, rfl⟩

/-- C10: batch processing order is deterministic — whatever order the
filesystem glob enumerates the WAV files in, the processed order is
their unique lexicographically sorted arrangement, so two enumerations
of the same files yield the same processing order. -/
theorem processing_order_deterministic (l1 l2 : List String)
    (h : l1.Perm l2) :
    processingOrder l1 = processingOrder l2
    ∧ (processingOrder l1).Sorted (· ≤ ·)
    ∧ (processingOrder l1).Perm l1 := by
  have hs1 : (processingOrder l1).Sorted (· ≤ ·) :=
    List.sorted_insertionSort _ l1
  have hs2 : (processingOrder l2).Sorted (· ≤ ·) :=
    List.sorted_insertionSort _ l2
  have hp : (processingOrder l1).Perm (processingOrder l2) :=
    ((List.perm_insertionSort _ l1).trans h).trans
      (List.perm_insertionSort _ l2).symm
  exact ⟨List.eq_of_perm_of_sorted hp hs1 hs2, hs1, List.perm_insertionSort _ l1⟩

theorem processing_order_deterministic_witness :
    (["b.wav", "a.wav"] : List String).Perm ["a.wav", "b.wav"]
    ∧ processingOrder ["b.wav", "a.wav"] = processingOrder ["a.wav", "b.wav"] :=
  ⟨List.Perm.swap "a.wav" "b.wav" [],
   (processing_order_deterministic ["b.wav", "a.wav"] ["a.wav", "b.wav"]
     (List.Perm.swap "a.wav" "b.wav" [])).1⟩

end A2F
